import Mathlib

/-!
Verification development for the Sentry MCP server (`src/index.ts`).

The embedding models the request-dispatch and resilience layer: the axios
retry interceptor, the two upstream query helpers, the six tool `exec`
functions, the capability descriptor, and the `CallToolRequestSchema`
handler. Machine-level details are modelled as follows: JS falsiness of a
string is emptiness, of a number is being zero; `dateCreated` carries the
epoch-millisecond value `new Date(s).getTime()` as a natural number; a
thrown JS exception is `Except.error`; the upstream API is an explicit
environment record, one accessor per endpoint, each returning the outcome
of the corresponding (post-retry) HTTP request.
-/

/-- Minimal model of a JSON value, for `JSON.stringify` payloads. -/
inductive Json where
  | str : String → Json
  | num : Int → Json
  | bool : Bool → Json
  | null : Json
  | arr : List Json → Json
  | obj : List (String × Json) → Json
deriving Repr

/-- Key list of a JSON object (used to tell differently-shaped objects apart). -/
def Json.objKeys : Json → List String
  | .obj l => l.map Prod.fst
  | _ => []

/-- JS `x || d` for an optional string (absent and empty string are falsy). -/
def jsOrStr : Option String → String → String
  | some s, d => if s = "" then d else s
  | none, d => d

/-- JS `x || d` for an optional integer (absent and 0 are falsy). -/
def jsOrInt : Option Int → Int → Int
  | some n, d => if n = 0 then d else n
  | none, d => d

/-- JS `x ? String(x) : undefined` for an optional string argument. -/
def truthyStrOpt : Option String → Option String
  | some s => if s = "" then none else some s
  | none => none

/-- JS `x ? Number(x) : undefined` for an optional numeric argument. -/
def truthyIntOpt : Option Int → Option Int
  | some n => if n = 0 then none else some n
  | none => none

/-- JS `Array.prototype.slice(0, e)`: a negative end counts from the end,
clamped at 0. -/
def jsSliceTo {α : Type} (l : List α) (e : Int) : List α :=
  l.take (if e < 0 then ((l.length : Int) + e).toNat else e.toNat)

/-- Char-list test: does the second list start with the first? -/
def charStarts : List Char → List Char → Bool
  | [], _ => true
  | _ :: _, [] => false
  | a :: as, b :: bs => a == b && charStarts as bs

/-- Char-list test: does the needle occur anywhere inside the haystack? -/
def charHasSub (needle : List Char) : List Char → Bool
  | [] => charStarts needle []
  | c :: rest => charStarts needle (c :: rest) || charHasSub needle rest

/-- Model of JS `hay.includes(needle)`. -/
def strIncludes (hay needle : String) : Bool :=
  charHasSub needle.toList hay.toList

/-- Raw upstream release entry (`SentryReleaseResponse`): the fields the code
reads, plus `extra` standing in for the `[key: string]: any` remainder of the
payload. -/
structure RawRelease where
  version : String
  dateCreated : Nat
  newGroups : Nat
  extra : Json := Json.null
deriving Repr

/-- Release projection produced by `getSortedReleases`. -/
structure Release where
  version : String
  dateCreated : Nat
  newGroups : Nat
deriving Repr, DecidableEq

/-- Entry returned by `list_recent_releases`. -/
structure RecentRelease where
  version : String
  date : Nat
  new_issues : Nat
  type : String
deriving Repr, DecidableEq

/-- Raw upstream issue payload: the fields the code reads plus a remainder. -/
structure IssueData where
  id : String
  title : String
  permalink : String
  extra : Json := Json.null
deriving Repr

/-- Issue projection returned by `get_issue` and `get_release_issues`. -/
structure IssueOut where
  id : String
  title : String
  permalink : String
deriving Repr, DecidableEq

/-- Raw upstream project payload: the numeric id the code reads plus a
remainder. -/
structure ProjectData where
  id : Nat
  extra : Json := Json.null
deriving Repr

/-- Fields of the release-detail payload read by `get_release_health`; their
values are passed through unmodified, so they stay opaque JSON. -/
structure ReleaseDetailData where
  new_groups : Json := Json.null
  crash_free_rate : Json := Json.null
  sessions : Json := Json.null
  stats : Json := Json.null
deriving Repr

/-- Result of `get_release_health`. -/
structure HealthResult where
  version : String
  new_issues : Json
  crash_free_rate : Json
  sessions : Json
  stats : Json
deriving Repr

/-- Startup configuration: SENTRY_BASE_URL, whether SENTRY_AUTH_TOKEN is set,
SENTRY_ORG_SLUG, plus the opaque process/environment info reported by
`inspect_sentry`. -/
structure Config where
  baseUrl : String
  authTokenConfigured : Bool
  orgSlug : String
  envInfo : Json := Json.null

/-- The upstream API, one accessor per endpoint the code calls; each returns
the outcome of the (post-retry) HTTP request. `issue` is keyed by the literal
request path so the issued request is part of the model; `searchIssues` takes
the org slug, the numeric project id and the query string. -/
structure UpstreamEnv where
  releases : String → String → Except String (List RawRelease)
  releaseDetail : String → String → String → Except String ReleaseDetailData
  issue : String → Except String IssueData
  project : String → String → Except String ProjectData
  searchIssues : String → Nat → String → Except String (List IssueData)

/-- Value of `retry: 3` in the axios instance configuration. -/
def retryMax : Nat := 3

/-- Value of `retryDelay: (retryCount) => retryCount * 1000`. -/
def retryDelayMs (retryCount : Nat) : Nat := retryCount * 1000

/-- Model of the axios response interceptor: attempt `idx` has outcome
`attempts idx`; on failure with `__retryCount = c` the error is rejected when
`c ≥ retry`, otherwise the count is bumped, the backoff `retryDelay (c+1)` is
taken and the request is reissued. Returns the final outcome together with
the list of backoff delays taken. -/
def retryAux {E R : Type} (attempts : Nat → Except E R) (retry : Nat)
    (retryDelay : Nat → Nat) (idx c : Nat) : Except E R × List Nat :=
  match attempts idx with
  | .ok r => (.ok r, [])
  | .error e =>
    if h : retry ≤ c then (.error e, [])
    else
      let rest := retryAux attempts retry retryDelay (idx + 1) (c + 1)
      (rest.1, retryDelay (c + 1) :: rest.2)
termination_by retry - c
decreasing_by omega

/-- A request issued through `axiosInstance`: the initial attempt is attempt 0
with `__retryCount` 0, under the instance's retry configuration. -/
def axiosRequest {E R : Type} (attempts : Nat → Except E R) :
    Except E R × List Nat :=
  retryAux attempts retryMax retryDelayMs 0 0

/-- The comparison realized by the sort callback
`(a, b) => new Date(b.dateCreated).getTime() - new Date(a.dateCreated).getTime()`:
`a` may come before `b` exactly when `b`'s timestamp is at most `a`'s. -/
def releaseLaterEq (a b : RawRelease) : Prop :=
  b.dateCreated ≤ a.dateCreated

instance : DecidableRel releaseLaterEq :=
  fun a b => Nat.decLe b.dateCreated a.dateCreated

instance : IsTotal RawRelease releaseLaterEq :=
  ⟨fun a b => Nat.le_total b.dateCreated a.dateCreated⟩

instance : IsTrans RawRelease releaseLaterEq :=
  ⟨fun _ _ _ hab hbc => Nat.le_trans hbc hab⟩

/-- The per-entry projection `(release) => ({version, dateCreated, newGroups})`
of `getSortedReleases`. -/
def projRelease (r : RawRelease) : Release :=
  { version := r.version, dateCreated := r.dateCreated, newGroups := r.newGroups }

/-- Model of `getSortedReleases`: GET the project's release list, sort it by
`dateCreated` descending, project each entry down to the three fields. -/
def getSortedReleases (env : UpstreamEnv) (orgSlug projectSlug : String) :
    Except String (List Release) := do
  let data ← env.releases orgSlug projectSlug
  pure ((data.insertionSort releaseLaterEq).map projRelease)

/-- Model of `getLatestReleaseVersion`: GET the project's release list and
throw `No releases found` when `response.data?.[0]?.version` is falsy — the
list is empty or its first version string is empty. -/
def getLatestReleaseVersion (env : UpstreamEnv) (orgSlug projectSlug : String) :
    Except String String := do
  let data ← env.releases orgSlug projectSlug
  match data with
  | [] => Except.error "No releases found"
  | r :: _ => if r.version = "" then Except.error "No releases found" else pure r.version

/-- Parameters of `tools.list_recent_releases.exec`. -/
structure ListRecentReleasesParams where
  project_slug : String
  org_slug : Option String := none
  count : Option Int := none

/-- Parameters of `tools.get_releases.exec`. -/
structure GetReleasesParams where
  project_slug : String
  org_slug : Option String := none

/-- Parameters of `tools.get_release_health.exec`. -/
structure GetReleaseHealthParams where
  project_slug : String
  org_slug : Option String := none
  release_version : Option String := none

/-- Parameters of `tools.get_issue.exec`. -/
structure GetIssueParams where
  issue_id : String
  org_slug : String
  project_slug : String

/-- Parameters of `tools.get_release_issues.exec`. -/
structure GetReleaseIssuesParams where
  project_slug : String
  org_slug : Option String := none
  release_version : Option String := none

/-- Model of `tools.list_recent_releases.exec`: default the org, default the
count to 5 (`params.count || 5`), fetch the sorted releases, truncate with
`slice(0, count)` and map each entry to its summary, classifying versions
containing the substring `mobile`. -/
def list_recent_releases_exec (cfg : Config) (env : UpstreamEnv)
    (params : ListRecentReleasesParams) : Except String (List RecentRelease) := do
  let orgSlug := jsOrStr params.org_slug cfg.orgSlug
  let count := jsOrInt params.count 5
  let releases ← getSortedReleases env orgSlug params.project_slug
  pure ((jsSliceTo releases count).map fun release =>
    { version := release.version
      date := release.dateCreated
      new_issues := release.newGroups
      type := if strIncludes release.version "mobile" then "mobile" else "desktop" })

/-- Model of `tools.get_releases.exec`. -/
def get_releases_exec (cfg : Config) (env : UpstreamEnv)
    (params : GetReleasesParams) : Except String (List Release) := do
  let orgSlug := jsOrStr params.org_slug cfg.orgSlug
  getSortedReleases env orgSlug params.project_slug

/-- Model of `tools.get_release_health.exec`: resolve the release version with
`params.release_version || await getLatestReleaseVersion(...)`, GET the release
detail resource, extract the five fields. -/
def get_release_health_exec (cfg : Config) (env : UpstreamEnv)
    (params : GetReleaseHealthParams) : Except String HealthResult := do
  let orgSlug := jsOrStr params.org_slug cfg.orgSlug
  let releaseVersion ←
    match params.release_version with
    | some v =>
      if v = "" then getLatestReleaseVersion env orgSlug params.project_slug else pure v
    | none => getLatestReleaseVersion env orgSlug params.project_slug
  let d ← env.releaseDetail orgSlug params.project_slug releaseVersion
  pure { version := releaseVersion, new_issues := d.new_groups,
         crash_free_rate := d.crash_free_rate, sessions := d.sessions,
         stats := d.stats }

/-- The request path issued by `get_issue`: `/issues/\x7bissue_id\x7d/`. -/
def getIssueUrl (params : GetIssueParams) : String :=
  "/issues/" ++ params.issue_id ++ "/"

/-- Model of `tools.get_issue.exec`: GET the issue resource by id and project
it to id, title and permalink. -/
def get_issue_exec (env : UpstreamEnv) (params : GetIssueParams) :
    Except String IssueOut := do
  let d ← env.issue (getIssueUrl params)
  pure { id := d.id, title := d.title, permalink := d.permalink }

/-- Model of `tools.get_release_issues.exec`: resolve the release version from
the raw (unsorted) first list element when the argument is falsy, resolve the
numeric project id, search the org-level issues endpoint with the filter
`release:"<version>"` and project each hit. -/
def get_release_issues_exec (cfg : Config) (env : UpstreamEnv)
    (params : GetReleaseIssuesParams) : Except String (List IssueOut) := do
  let orgSlug := jsOrStr params.org_slug cfg.orgSlug
  let releaseVersion ←
    if params.release_version.getD "" = "" then do
      let data ← env.releases orgSlug params.project_slug
      match data with
      | [] => Except.error ("No releases found for project " ++ params.project_slug)
      | r :: _ => pure r.version
    else
      pure (params.release_version.getD "")
  if releaseVersion = "" then
    Except.error "Could not determine release version."
  else do
    let project ← env.project orgSlug params.project_slug
    let issues ← env.searchIssues orgSlug project.id
      ("release:\"" ++ releaseVersion ++ "\"")
    pure (issues.map fun issue =>
      { id := issue.id, title := issue.title, permalink := issue.permalink })

/-- The value of `Object.keys(tools)`, in declaration order. -/
def toolNames : List String :=
  ["inspect_sentry", "list_recent_releases", "get_releases",
   "get_release_health", "get_issue", "get_release_issues"]

/-- The `configuration` block of the `inspect_sentry` result. -/
structure InspectConfiguration where
  baseUrl : String
  authTokenConfigured : Bool
  defaultOrg : String
deriving Repr, DecidableEq

/-- Result of `inspect_sentry`. -/
structure InspectResult where
  configuration : InspectConfiguration
  capabilities : List String
  environment : Json
deriving Repr

/-- Model of `tools.inspect_sentry.exec`: configuration summary, the other
tool names (`Object.keys(tools).filter(k => k !== 'inspect_sentry')`), and
opaque process info. -/
def inspect_sentry_exec (cfg : Config) : InspectResult :=
  { configuration :=
      { baseUrl := cfg.baseUrl, authTokenConfigured := cfg.authTokenConfigured,
        defaultOrg := cfg.orgSlug }
    capabilities := toolNames.filter (fun k => k ≠ "inspect_sentry")
    environment := cfg.envInfo }

/-- One entry of the capability descriptor: description plus the input
schema's property names and required names. -/
structure ToolDefinition where
  description : String
  properties : List String
  required : List String
deriving Repr, DecidableEq

/-- Model of `serverCapabilities.tools`, in declaration order. -/
def serverCapabilities : List (String × ToolDefinition) :=
  [("inspect_sentry",
    { description := "Inspect server configuration and capabilities",
      properties := [], required := [] }),
   ("list_recent_releases",
    { description := "List most recent releases with issue counts",
      properties := ["project_slug", "org_slug", "count"],
      required := ["project_slug"] }),
   ("get_releases",
    { description := "Get all releases sorted by date (newest first)",
      properties := ["project_slug", "org_slug"],
      required := ["project_slug"] }),
   ("get_release_health",
    { description := "Get health metrics for a release",
      properties := ["project_slug", "org_slug", "release_version"],
      required := ["project_slug"] }),
   ("get_issue",
    { description := "Get a Sentry issue by ID",
      properties := ["issue_id", "org_slug", "project_slug"],
      required := ["issue_id", "org_slug", "project_slug"] }),
   ("get_release_issues",
    { description := "Get issues from a specific release (defaults to latest)",
      properties := ["project_slug", "org_slug", "release_version"],
      required := ["project_slug"] })]

/-- Required-field list of a named tool in the capability descriptor. -/
def requiredOf (name : String) : List String :=
  match serverCapabilities.lookup name with
  | some d => d.required
  | none => []

/-- The loosely-typed `request.params.arguments` record: `some` marks a
present key. Values are modelled already carrying their coerced primitive
type, so the JS `String(...)` and `Number(...)` coercions act as the
identity on them. -/
structure Args where
  project_slug : Option String := none
  org_slug : Option String := none
  count : Option Int := none
  issue_id : Option String := none
  release_version : Option String := none
deriving Repr, DecidableEq

/-- Model of `request.params` of a call-tool envelope. -/
structure ToolCallRequest where
  name : String
  arguments : Option Args := none

/-- Presence of the field named `f` in `args` (the JS `'f' in args` test). -/
def argPresent (args : Args) : String → Bool
  | "project_slug" => args.project_slug.isSome
  | "org_slug" => args.org_slug.isSome
  | "count" => args.count.isSome
  | "issue_id" => args.issue_id.isSome
  | "release_version" => args.release_version.isSome
  | _ => false

/-- Sum of the six tools' return values. -/
inductive ToolResult where
  | inspect : InspectResult → ToolResult
  | recent : List RecentRelease → ToolResult
  | releases : List Release → ToolResult
  | health : HealthResult → ToolResult
  | issue : IssueOut → ToolResult
  | issues : List IssueOut → ToolResult

/-- Serialization of a `Release` entry. -/
def releaseJson (r : Release) : Json :=
  Json.obj [("version", Json.str r.version),
            ("dateCreated", Json.num (r.dateCreated : Int)),
            ("newGroups", Json.num (r.newGroups : Int))]

/-- Serialization of a `RecentRelease` entry. -/
def recentReleaseJson (r : RecentRelease) : Json :=
  Json.obj [("version", Json.str r.version),
            ("date", Json.num (r.date : Int)),
            ("new_issues", Json.num (r.new_issues : Int)),
            ("type", Json.str r.type)]

/-- Serialization of an issue projection. -/
def issueOutJson (i : IssueOut) : Json :=
  Json.obj [("id", Json.str i.id), ("title", Json.str i.title),
            ("permalink", Json.str i.permalink)]

/-- Serialization of a `get_release_health` result. -/
def healthJson (h : HealthResult) : Json :=
  Json.obj [("version", Json.str h.version), ("new_issues", h.new_issues),
            ("crash_free_rate", h.crash_free_rate), ("sessions", h.sessions),
            ("stats", h.stats)]

/-- Serialization of an `inspect_sentry` result. -/
def inspectJson (r : InspectResult) : Json :=
  Json.obj [("configuration", Json.obj
               [("baseUrl", Json.str r.configuration.baseUrl),
                ("authTokenConfigured", Json.bool r.configuration.authTokenConfigured),
                ("defaultOrg", Json.str r.configuration.defaultOrg)]),
            ("capabilities", Json.arr (r.capabilities.map Json.str)),
            ("environment", r.environment)]

/-- Model of `JSON.stringify(result)` over the possible tool return values. -/
def toolResultJson : ToolResult → Json
  | .inspect r => inspectJson r
  | .recent l => Json.arr (l.map recentReleaseJson)
  | .releases l => Json.arr (l.map releaseJson)
  | .health h => healthJson h
  | .issue i => issueOutJson i
  | .issues l => Json.arr (l.map issueOutJson)

/-- One content block of a tool-call result. -/
structure ContentBlock where
  type : String
  text : Json
deriving Repr

/-- The response envelope. The JS success object omits `isError`, which the
protocol reads as false, so absence is modelled as `false`. -/
structure ToolCallResult where
  content : List ContentBlock
  isError : Bool
deriving Repr

/-- The error message thrown by the argument-validation step of the named
dispatcher branch. -/
def invalidArgsMsg (name : String) : String :=
  if name = "get_issue" then
    "Invalid arguments for get_issue - requires issue_id, org_slug and project_slug"
  else
    "Invalid arguments for " ++ name ++ " - requires project_slug"

/-- Body of the `try` block of the call-tool handler: the per-tool argument
presence checks and coercions followed by the tool's `exec`. -/
def tryDispatch (cfg : Config) (env : UpstreamEnv) (req : ToolCallRequest) :
    Except String ToolResult :=
  if req.name = "list_recent_releases" then
    match req.arguments with
    | some args =>
      match args.project_slug with
      | some project =>
        (list_recent_releases_exec cfg env
            { project_slug := project, org_slug := truthyStrOpt args.org_slug,
              count := truthyIntOpt args.count }).map ToolResult.recent
      | none => Except.error "Invalid arguments for list_recent_releases - requires project_slug"
    | none => Except.error "Invalid arguments for list_recent_releases - requires project_slug"
  else if req.name = "get_releases" then
    match req.arguments with
    | some args =>
      match args.project_slug with
      | some project =>
        (get_releases_exec cfg env
            { project_slug := project,
              org_slug := truthyStrOpt args.org_slug }).map ToolResult.releases
      | none => Except.error "Invalid arguments for get_releases - requires project_slug"
    | none => Except.error "Invalid arguments for get_releases - requires project_slug"
  else if req.name = "get_issue" then
    match req.arguments with
    | some args =>
      match args.issue_id, args.org_slug, args.project_slug with
      | some issueId, some org, some project =>
        (get_issue_exec env
            { issue_id := issueId, org_slug := org,
              project_slug := project }).map ToolResult.issue
      | _, _, _ =>
        Except.error "Invalid arguments for get_issue - requires issue_id, org_slug and project_slug"
    | none =>
      Except.error "Invalid arguments for get_issue - requires issue_id, org_slug and project_slug"
  else if req.name = "get_release_issues" then
    match req.arguments with
    | some args =>
      match args.project_slug with
      | some project =>
        (get_release_issues_exec cfg env
            { project_slug := project,
              org_slug := some (jsOrStr args.org_slug cfg.orgSlug),
              release_version := none }).map ToolResult.issues
      | none => Except.error "Invalid arguments for get_release_issues - requires project_slug"
    | none => Except.error "Invalid arguments for get_release_issues - requires project_slug"
  else if req.name = "inspect_sentry" then
    Except.ok (ToolResult.inspect (inspect_sentry_exec cfg))
  else if req.name = "get_release_health" then
    match req.arguments with
    | some args =>
      match args.project_slug with
      | some project =>
        (get_release_health_exec cfg env
            { project_slug := project,
              org_slug := some (jsOrStr args.org_slug cfg.orgSlug),
              release_version := truthyStrOpt args.release_version }).map ToolResult.health
      | none => Except.error "Invalid arguments for get_release_health - requires project_slug"
    | none => Except.error "Invalid arguments for get_release_health - requires project_slug"
  else
    Except.error "Unknown tool"

/-- Envelope produced by the `catch` block. -/
def errorEnvelope (details : String) : ToolCallResult :=
  { content := [{ type := "text",
                  text := Json.obj [("error", Json.str "Failed to execute tool"),
                                    ("details", Json.str details)] }],
    isError := true }

/-- Envelope returned on success: one text block holding the serialized
result. -/
def successEnvelope (r : ToolResult) : ToolCallResult :=
  { content := [{ type := "text", text := toolResultJson r }], isError := false }

/-- Property names the plain object literal `tools` inherits from
`Object.prototype` (Node/V8): the JS lookup `tools[name]` resolves these to
truthy values (functions, or the prototype object itself for `__proto__`)
even though they are not registry keys. -/
def objectProtoProps : List String :=
  ["constructor", "hasOwnProperty", "isPrototypeOf", "propertyIsEnumerable",
   "toLocaleString", "toString", "valueOf", "__defineGetter__",
   "__defineSetter__", "__lookupGetter__", "__lookupSetter__", "__proto__"]

/-- Truthiness of the JS property lookup `tools[name]`: true for the six
registry keys and for the names inherited from `Object.prototype`. -/
def toolsLookupTruthy (name : String) : Bool :=
  toolNames.contains name || objectProtoProps.contains name

/-- The full `CallToolRequestSchema` handler. `Except.error m` models an
exception thrown past the handler's boundary (the name check sits outside the
`try` block); `Except.ok e` a normally returned envelope. The existence check
is the JS lookup `!tools[request.params.name]`, which a prototype-inherited
name passes, falling through to the try block's `Unknown tool` throw. -/
def handleCallTool (cfg : Config) (env : UpstreamEnv) (req : ToolCallRequest) :
    Except String ToolCallResult :=
  if req.name = "" || !(toolsLookupTruthy req.name) then
    Except.error "Tool not found"
  else
    match tryDispatch cfg env req with
    | .ok r => Except.ok (successEnvelope r)
    | .error e => Except.ok (errorEnvelope e)

/-- A concrete configuration used by witnesses and counterexamples. -/
def cfgEx : Config :=
  { baseUrl := "https://sentry.example/api/0/", authTokenConfigured := true,
    orgSlug := "acme" }

/-- A concrete older release. -/
def rawA : RawRelease := { version := "a", dateCreated := 100, newGroups := 1 }

/-- A concrete newer release. -/
def rawB : RawRelease := { version := "b", dateCreated := 200, newGroups := 2 }

/-- A concrete upstream environment: two releases, an issue endpoint echoing
the request path into the permalink, a project with numeric id 89, and a
search endpoint echoing the query into the title. -/
def envEx : UpstreamEnv :=
  { releases := fun _ _ => Except.ok [rawA, rawB]
    releaseDetail := fun _ _ _ => Except.ok { new_groups := Json.num 1 }
    issue := fun url => Except.ok { id := "42", title := "boom", permalink := url }
    project := fun _ _ => Except.ok { id := 89 }
    searchIssues := fun _ _ q => Except.ok [{ id := "7", title := q, permalink := "pl" }] }

/-- The concrete environment with a replaced release list. -/
def envOfReleases (l : List RawRelease) : UpstreamEnv :=
  { envEx with releases := fun _ _ => Except.ok l }

/-- Conversion of a projected release to its `list_recent_releases` summary
entry (the per-entry map in that tool's exec). -/
def recentOfRelease (r : Release) : RecentRelease :=
  { version := r.version, date := r.dateCreated, new_issues := r.newGroups,
    type := if strIncludes r.version "mobile" then "mobile" else "desktop" }

/-- Descending-by-date order on summary entries. -/
def recentDateDesc (a b : RecentRelease) : Prop := b.date ≤ a.date

/-- Descending-by-date order on projected releases. -/
def releaseDateDesc (a b : Release) : Prop := b.dateCreated ≤ a.dateCreated

/-- Attempt sequence that fails twice and then succeeds. -/
def attemptsTwoFail : Nat → Except String (List RawRelease) :=
  fun i => if i < 2 then Except.error ("fail " ++ toString i) else Except.ok [rawA]

/-- Attempt sequence that fails on every attempt, with distinct messages. -/
def attemptsAllFail : Nat → Except String (List RawRelease) :=
  fun i => Except.error ("fail " ++ toString i)

lemma retryAux_ok {E R : Type} (attempts : Nat → Except E R) (retry : Nat)
    (dl : Nat → Nat) (idx c : Nat) (r : R) (h : attempts idx = Except.ok r) :
    retryAux attempts retry dl idx c = (Except.ok r, []) := by
  conv_lhs => rw [retryAux.eq_def]
  rw [h]

lemma retryAux_error_stop {E R : Type} (attempts : Nat → Except E R) (retry : Nat)
    (dl : Nat → Nat) (idx c : Nat) (e : E) (h : attempts idx = Except.error e)
    (hc : retry ≤ c) : retryAux attempts retry dl idx c = (Except.error e, []) := by
  conv_lhs => rw [retryAux.eq_def]
  rw [h]
  exact dif_pos hc

lemma retryAux_error_step {E R : Type} (attempts : Nat → Except E R) (retry : Nat)
    (dl : Nat → Nat) (idx c : Nat) (e : E) (h : attempts idx = Except.error e)
    (hc : ¬ retry ≤ c) :
    retryAux attempts retry dl idx c =
      ((retryAux attempts retry dl (idx + 1) (c + 1)).1,
        dl (c + 1) :: (retryAux attempts retry dl (idx + 1) (c + 1)).2) := by
  conv_lhs => rw [retryAux.eq_def]
  rw [h]
  exact dif_neg hc

/-- C9: the capability descriptor and the tool registry list the same six
tool names, in the same order (a bijection on a duplicate-free set), and
`inspect_sentry` excludes itself from the capability list it returns while
every other registered tool name appears in it. -/
theorem registry_capability_bijection (cfg : Config) :
    serverCapabilities.map Prod.fst = toolNames ∧
    toolNames.Nodup ∧
    "inspect_sentry" ∉ (inspect_sentry_exec cfg).capabilities ∧
    ∀ n, (n ∈ toolNames ∧ n ≠ "inspect_sentry") ↔
      n ∈ (inspect_sentry_exec cfg).capabilities := by
  refine ⟨rfl, by decide, ?_, ?_⟩
  · simp [inspect_sentry_exec, toolNames]
  · intro n
    simp only [inspect_sentry_exec, List.mem_filter, decide_not]
    constructor
    · rintro ⟨hm, hne⟩
      exact ⟨hm, by simpa using hne⟩
    · rintro ⟨hm, hne⟩
      exact ⟨hm, by simpa using hne⟩

/-- C10: `get_issue` ignores `org_slug` and `project_slug`: with the same
`issue_id`, the issued request path, the exec outcome and the full dispatcher
envelope are identical whatever the two (required) slug arguments are. -/
theorem get_issue_ignores_org_and_project (cfg : Config) (env : UpstreamEnv)
    (issueId o1 p1 o2 p2 : String) (c : Option Int) (rv : Option String) :
    getIssueUrl { issue_id := issueId, org_slug := o1, project_slug := p1 } =
      getIssueUrl { issue_id := issueId, org_slug := o2, project_slug := p2 } ∧
    get_issue_exec env { issue_id := issueId, org_slug := o1, project_slug := p1 } =
      get_issue_exec env { issue_id := issueId, org_slug := o2, project_slug := p2 } ∧
    handleCallTool cfg env
        { name := "get_issue",
          arguments := some { project_slug := some p1, org_slug := some o1,
                              count := c, issue_id := some issueId,
                              release_version := rv } } =
      handleCallTool cfg env
        { name := "get_issue",
          arguments := some { project_slug := some p2, org_slug := some o2,
                              count := c, issue_id := some issueId,
                              release_version := rv } } :=
  ⟨rfl, rfl, rfl⟩

/-- C1 counterexample: an unregistered tool name makes the handler throw
`Tool not found` past its own boundary (modelled as `Except.error`), instead
of returning a normal isError envelope. -/
theorem dispatcher_unknown_tool_raises_cex :
    handleCallTool cfgEx envEx { name := "unknown_tool" } =
      Except.error "Tool not found" ∧
    (handleCallTool cfgEx envEx { name := "unknown_tool" }).isOk = false :=
  ⟨rfl, rfl⟩

/-- C1 amended: for a registered tool name the handler returns a normal
envelope, whatever the arguments and the upstream behaviour (every failure
inside the try block is caught); a name inherited from `Object.prototype`
(toString, constructor, ...) passes the JS existence check and produces a
normal isError envelope with details `Unknown tool` from the try block's
final throw; every other (or empty) name throws `Tool not found` past the
handler boundary. -/
theorem dispatcher_name_gate_behavior (cfg : Config) (env : UpstreamEnv)
    (req : ToolCallRequest) :
    (toolNames.contains req.name = true →
       ∃ r, handleCallTool cfg env req = Except.ok r) ∧
    (objectProtoProps.contains req.name = true →
       handleCallTool cfg env req = Except.ok (errorEnvelope "Unknown tool")) ∧
    (toolNames.contains req.name = false →
     objectProtoProps.contains req.name = false →
       handleCallTool cfg env req = Except.error "Tool not found") := by
  refine ⟨?_, ?_, ?_⟩
  · intro hmem
    have hmem' : req.name ∈ toolNames := by simpa using hmem
    have hne : req.name ≠ "" := by
      intro h0
      rw [h0] at hmem'
      simp [toolNames] at hmem'
    unfold handleCallTool
    rw [if_neg (by simp [toolsLookupTruthy, hmem', hne])]
    cases tryDispatch cfg env req with
    | ok r => exact ⟨successEnvelope r, rfl⟩
    | error e => exact ⟨errorEnvelope e, rfl⟩
  · intro hproto
    obtain ⟨name, args⟩ := req
    have hmem' : name ∈ objectProtoProps := by simpa using hproto
    simp only [objectProtoProps, List.mem_cons, List.not_mem_nil, or_false] at hmem'
    rcases hmem' with rfl | rfl | rfl | rfl | rfl | rfl | rfl | rfl | rfl | rfl | rfl | rfl <;>
      simp [handleCallTool, toolsLookupTruthy, toolNames, objectProtoProps, tryDispatch]
  · intro hmem hproto
    have h1 : req.name ∉ toolNames := by simpa using hmem
    have h2 : req.name ∉ objectProtoProps := by simpa using hproto
    unfold handleCallTool
    rw [if_pos (by simp [toolsLookupTruthy, h1, h2])]

/-- Witness for the C1 amended theorem at a concrete registered name, a
concrete prototype-inherited name and a concrete unknown name. -/
theorem dispatcher_name_gate_behavior_witness :
    (∃ r, handleCallTool cfgEx envEx { name := "get_releases" } = Except.ok r) ∧
    handleCallTool cfgEx envEx { name := "toString" } =
      Except.ok (errorEnvelope "Unknown tool") ∧
    handleCallTool cfgEx envEx { name := "not_a_tool" } =
      Except.error "Tool not found" :=
  ⟨(dispatcher_name_gate_behavior cfgEx envEx { name := "get_releases" }).1 rfl,
   (dispatcher_name_gate_behavior cfgEx envEx { name := "toString" }).2.1 rfl,
   (dispatcher_name_gate_behavior cfgEx envEx { name := "not_a_tool" }).2.2 rfl rfl⟩

/-- C2 counterexample: four consecutive failures with distinct errors make
the interceptor reject with the fourth attempt's error, not the original
first failure. -/
theorem retry_surfaces_final_not_first_error_cex :
    (axiosRequest attemptsAllFail).1 = Except.error "fail 3" ∧
    (axiosRequest attemptsAllFail).1 ≠ Except.error "fail 0" := by
  have s0 := retryAux_error_step attemptsAllFail 3 retryDelayMs 0 0 "fail 0" rfl (by omega)
  have s1 := retryAux_error_step attemptsAllFail 3 retryDelayMs 1 1 "fail 1" rfl (by omega)
  have s2 := retryAux_error_step attemptsAllFail 3 retryDelayMs 2 2 "fail 2" rfl (by omega)
  have s3 := retryAux_error_stop attemptsAllFail 3 retryDelayMs 3 3 "fail 3" rfl (by omega)
  have h : axiosRequest attemptsAllFail = (Except.error "fail 3", [1000, 2000, 3000]) := by
    simp [axiosRequest, retryMax, s0, s1, s2, s3, retryDelayMs]
  rw [h]
  exact ⟨rfl, by simp⟩

/-- C2 amended: a failed request is retried up to 3 times with backoff
n × 1000 ms before retry n; two failures followed by a success produce the
success, and through the dispatcher a successful (isError-free) tool
envelope; four consecutive failures surface the failure of the final
attempt as an isError envelope. -/
theorem retry_policy_delays_and_surfaced_failure
    (f : Nat → Except String (List RawRelease)) (e0 e1 e2 e3 : String)
    (d : List RawRelease) :
    (f 0 = Except.error e0 → f 1 = Except.error e1 → f 2 = Except.ok d →
       axiosRequest f = (Except.ok d, [1000, 2000])) ∧
    (f 0 = Except.error e0 → f 1 = Except.error e1 → f 2 = Except.error e2 →
     f 3 = Except.error e3 →
       axiosRequest f = (Except.error e3, [1000, 2000, 3000])) ∧
    (∀ p : String, f 0 = Except.error e0 → f 1 = Except.error e1 → f 2 = Except.ok d →
       ∃ res, handleCallTool cfgEx
           { envEx with releases := fun _ _ => (axiosRequest f).1 }
           { name := "get_releases", arguments := some { project_slug := some p } } =
         Except.ok res ∧ res.isError = false) ∧
    (∀ p : String, f 0 = Except.error e0 → f 1 = Except.error e1 → f 2 = Except.error e2 →
     f 3 = Except.error e3 →
       handleCallTool cfgEx
           { envEx with releases := fun _ _ => (axiosRequest f).1 }
           { name := "get_releases", arguments := some { project_slug := some p } } =
         Except.ok (errorEnvelope e3) ∧ (errorEnvelope e3).isError = true) := by
  have main1 : f 0 = Except.error e0 → f 1 = Except.error e1 → f 2 = Except.ok d →
      axiosRequest f = (Except.ok d, [1000, 2000]) := by
    intro h0 h1 h2
    have s0 := retryAux_error_step f 3 retryDelayMs 0 0 e0 h0 (by omega)
    have s1 := retryAux_error_step f 3 retryDelayMs 1 1 e1 h1 (by omega)
    have s2 := retryAux_ok f 3 retryDelayMs 2 2 d h2
    simp [axiosRequest, retryMax, s0, s1, s2, retryDelayMs]
  have main2 : f 0 = Except.error e0 → f 1 = Except.error e1 → f 2 = Except.error e2 →
      f 3 = Except.error e3 →
      axiosRequest f = (Except.error e3, [1000, 2000, 3000]) := by
    intro h0 h1 h2 h3
    have s0 := retryAux_error_step f 3 retryDelayMs 0 0 e0 h0 (by omega)
    have s1 := retryAux_error_step f 3 retryDelayMs 1 1 e1 h1 (by omega)
    have s2 := retryAux_error_step f 3 retryDelayMs 2 2 e2 h2 (by omega)
    have s3 := retryAux_error_stop f 3 retryDelayMs 3 3 e3 h3 (by omega)
    simp [axiosRequest, retryMax, s0, s1, s2, s3, retryDelayMs]
  refine ⟨main1, main2, ?_, ?_⟩
  · intro p h0 h1 h2
    have hax : (axiosRequest f).1 = Except.ok d := by rw [main1 h0 h1 h2]
    refine ⟨successEnvelope (ToolResult.releases
      ((d.insertionSort releaseLaterEq).map projRelease)), ?_, rfl⟩
    simp [handleCallTool, toolsLookupTruthy, toolNames, objectProtoProps,
          tryDispatch, get_releases_exec, getSortedReleases, hax, jsOrStr,
          truthyStrOpt, Except.map]
  · intro p h0 h1 h2 h3
    have hax : (axiosRequest f).1 = Except.error e3 := by rw [main2 h0 h1 h2 h3]
    refine ⟨?_, rfl⟩
    simp [handleCallTool, toolsLookupTruthy, toolNames, objectProtoProps,
          tryDispatch, get_releases_exec, getSortedReleases, hax, jsOrStr,
          truthyStrOpt, Except.map]

/-- Witness for the C2 amended theorem: concrete attempt sequences that fail
twice then succeed, and that fail four times. -/
theorem retry_policy_delays_and_surfaced_failure_witness :
    axiosRequest attemptsTwoFail = (Except.ok [rawA], [1000, 2000]) ∧
    axiosRequest attemptsAllFail = (Except.error "fail 3", [1000, 2000, 3000]) :=
  ⟨(retry_policy_delays_and_surfaced_failure attemptsTwoFail "fail 0" "fail 1" "x" "y"
      [rawA]).1 rfl rfl rfl,
   (retry_policy_delays_and_surfaced_failure attemptsAllFail "fail 0" "fail 1" "fail 2"
      "fail 3" []).2.1 rfl rfl rfl rfl⟩

/-- C5: `getSortedReleases` returns a permutation of the upstream list sorted
by dateCreated descending, each entry projected down to version, dateCreated
and newGroups; in particular, for an older release a and a newer release b,
either upstream order makes `get_releases` return versions in order b, a. -/
theorem getSortedReleases_sorts_desc_and_projects (env : UpstreamEnv)
    (org proj : String) (data : List RawRelease)
    (h : env.releases org proj = Except.ok data) :
    (∃ sortedRaw : List RawRelease,
        sortedRaw.Perm data ∧ List.Pairwise releaseLaterEq sortedRaw ∧
        getSortedReleases env org proj = Except.ok (sortedRaw.map projRelease)) ∧
    (∀ t1 t2 g1 g2 : Nat, t1 < t2 →
      (get_releases_exec cfgEx (envOfReleases
          [{ version := "a", dateCreated := t1, newGroups := g1 },
           { version := "b", dateCreated := t2, newGroups := g2 }])
          { project_slug := "p" }).map (List.map Release.version) =
        Except.ok ["b", "a"] ∧
      (get_releases_exec cfgEx (envOfReleases
          [{ version := "b", dateCreated := t2, newGroups := g2 },
           { version := "a", dateCreated := t1, newGroups := g1 }])
          { project_slug := "p" }).map (List.map Release.version) =
        Except.ok ["b", "a"]) := by
  constructor
  · refine ⟨data.insertionSort releaseLaterEq, List.perm_insertionSort _ _,
      List.sorted_insertionSort _ _, ?_⟩
    simp [getSortedReleases, h]
  · intro t1 t2 g1 g2 hlt
    have hnle : ¬ (t2 ≤ t1) := by omega
    constructor <;>
      simp [get_releases_exec, getSortedReleases, envOfReleases, jsOrStr,
            List.insertionSort, List.orderedInsert, releaseLaterEq, projRelease,
            hnle, hlt.le, Except.map]

/-- Witness for C5 at the concrete two-release environment. -/
theorem getSortedReleases_sorts_desc_and_projects_witness :
    (∃ sortedRaw : List RawRelease,
        sortedRaw.Perm [rawA, rawB] ∧ List.Pairwise releaseLaterEq sortedRaw ∧
        getSortedReleases envEx "acme" "p" = Except.ok (sortedRaw.map projRelease)) ∧
    (get_releases_exec cfgEx (envOfReleases
        [{ version := "a", dateCreated := 100, newGroups := 1 },
         { version := "b", dateCreated := 200, newGroups := 2 }])
        { project_slug := "p" }).map (List.map Release.version) =
      Except.ok ["b", "a"] := by
  have h := getSortedReleases_sorts_desc_and_projects envEx "acme" "p" [rawA, rawB] rfl
  exact ⟨h.1, (h.2 100 200 1 2 (by omega)).1⟩

/-- C7: every envelope the dispatcher returns holds exactly one content
block, of type text; when the dispatched operation succeeds the block's text
is the JSON serialization of its return value and isError is false; when it
fails, isError is true. -/
theorem dispatcher_single_text_block_envelope (cfg : Config) (env : UpstreamEnv)
    (req : ToolCallRequest) (e : ToolCallResult)
    (h : handleCallTool cfg env req = Except.ok e) :
    e.content.length = 1 ∧ (∀ b ∈ e.content, b.type = "text") ∧
    (∀ r, tryDispatch cfg env req = Except.ok r →
       e = successEnvelope r ∧ e.isError = false ∧
       e.content = [{ type := "text", text := toolResultJson r }]) ∧
    (∀ m, tryDispatch cfg env req = Except.error m →
       e = errorEnvelope m ∧ e.isError = true) := by
  unfold handleCallTool at h
  split at h
  · exact absurd h (by simp)
  · cases hd : tryDispatch cfg env req with
    | ok r =>
      rw [hd] at h
      injection h with h
      subst h
      refine ⟨rfl, by simp [successEnvelope], ?_, ?_⟩
      · intro r' hr'
        injection hr' with hr'
        subst hr'
        exact ⟨rfl, rfl, rfl⟩
      · intro m hm
        exact absurd hm (by simp)
    | error m =>
      rw [hd] at h
      injection h with h
      subst h
      refine ⟨rfl, by simp [errorEnvelope], ?_, ?_⟩
      · intro r' hr'
        exact absurd hr' (by simp)
      · intro m' hm'
        injection hm' with hm'
        subst hm'
        exact ⟨rfl, rfl⟩

/-- Witness for C7 at a concrete successful `get_releases` call. -/
theorem dispatcher_single_text_block_envelope_witness :
    ∃ e, handleCallTool cfgEx envEx
        { name := "get_releases", arguments := some { project_slug := some "p" } } =
      Except.ok e ∧ e.content.length = 1 := by
  refine ⟨successEnvelope (ToolResult.releases
    [{ version := "b", dateCreated := 200, newGroups := 2 },
     { version := "a", dateCreated := 100, newGroups := 1 }]), rfl, ?_⟩
  exact (dispatcher_single_text_block_envelope cfgEx envEx
    { name := "get_releases", arguments := some { project_slug := some "p" } } _ rfl).1

/-- C3 counterexample: with count = 0 supplied, the JS `count || 5` default
treats 0 as absent, so one entry is returned even though the claim demands at
most 0. -/
theorem list_recent_releases_count_zero_cex :
    list_recent_releases_exec cfgEx (envOfReleases [rawA])
        { project_slug := "p", count := some 0 } =
      Except.ok [{ version := "a", date := 100, new_issues := 1, type := "desktop" }] ∧
    ¬ ((1 : Nat) ≤ 0) := ⟨rfl, by omega⟩

/-- Helper: `getSortedReleases` on a successful upstream list. -/
lemma getSortedReleases_ok {env : UpstreamEnv} {org proj : String}
    {data : List RawRelease} (h : env.releases org proj = Except.ok data) :
    getSortedReleases env org proj =
      Except.ok ((data.insertionSort releaseLaterEq).map projRelease) := by
  simp [getSortedReleases, h]

/-- Helper: `getSortedReleases` propagates an upstream failure. -/
lemma getSortedReleases_err {env : UpstreamEnv} {org proj m : String}
    (h : env.releases org proj = Except.error m) :
    getSortedReleases env org proj = Except.error m := by
  simp [getSortedReleases, h]

/-- Helper: functional form of `list_recent_releases_exec`. -/
lemma list_recent_releases_exec_split (cfg : Config) (env : UpstreamEnv)
    (p : String) (org : Option String) (co : Option Int) :
    list_recent_releases_exec cfg env
        { project_slug := p, org_slug := org, count := co } =
      (getSortedReleases env (jsOrStr org cfg.orgSlug) p).map
        (fun releases => (jsSliceTo releases (jsOrInt co 5)).map (fun release =>
          { version := release.version, date := release.dateCreated,
            new_issues := release.newGroups,
            type := if strIncludes release.version "mobile" then "mobile"
                    else "desktop" })) := by
  cases h : getSortedReleases env (jsOrStr org cfg.orgSlug) p <;>
    simp [list_recent_releases_exec, h, Except.map]

/-- C3 amended: for every positive count N the result has at most N entries;
count 0 behaves like an omitted count (the `|| 5` default), bounding the
result by 5; and every returned list is sorted by date descending. -/
theorem list_recent_releases_count_bound_sorted (cfg : Config)
    (env : UpstreamEnv) (p : String) (org : Option String) :
    (∀ c : Int, 0 < c → ∀ res,
       list_recent_releases_exec cfg env
           { project_slug := p, org_slug := org, count := some c } = Except.ok res →
       res.length ≤ c.toNat ∧ List.Pairwise recentDateDesc res) ∧
    (∀ co : Option Int, co = none ∨ co = some 0 → ∀ res,
       list_recent_releases_exec cfg env
           { project_slug := p, org_slug := org, count := co } = Except.ok res →
       res.length ≤ 5 ∧ List.Pairwise recentDateDesc res) := by
  have key : ∀ (co : Option Int), 0 ≤ jsOrInt co 5 → ∀ (res : List RecentRelease),
      list_recent_releases_exec cfg env
          { project_slug := p, org_slug := org, count := co } = Except.ok res →
      res.length ≤ (jsOrInt co 5).toNat ∧ List.Pairwise recentDateDesc res := by
    intro co hpos res hres
    rw [list_recent_releases_exec_split] at hres
    cases hrel : env.releases (jsOrStr org cfg.orgSlug) p with
    | error m =>
      rw [getSortedReleases_err hrel] at hres
      cases hres
    | ok data =>
      rw [getSortedReleases_ok hrel] at hres
      simp only [Except.map] at hres
      injection hres with hres
      subst hres
      constructor
      · rw [List.length_map, jsSliceTo, if_neg (by omega), List.length_take]
        exact min_le_left _ _
      · have hsorted : List.Pairwise releaseLaterEq (data.insertionSort releaseLaterEq) :=
          List.sorted_insertionSort _ _
        have hL : List.Pairwise (fun a b : Release => b.dateCreated ≤ a.dateCreated)
            ((data.insertionSort releaseLaterEq).map projRelease) := by
          rw [List.pairwise_map]
          exact hsorted.imp (fun hab => hab)
        have hTake : List.Pairwise (fun a b : Release => b.dateCreated ≤ a.dateCreated)
            (jsSliceTo ((data.insertionSort releaseLaterEq).map projRelease)
              (jsOrInt co 5)) := by
          rw [jsSliceTo]
          exact hL.sublist (List.take_sublist _ _)
        rw [List.pairwise_map]
        exact hTake.imp (fun hab => hab)
  constructor
  · intro c hc res hres
    have hcount : jsOrInt (some c) 5 = c := by
      rw [jsOrInt, if_neg (by omega)]
    have h := key (some c) (by rw [hcount]; omega) res hres
    rw [hcount] at h
    exact h
  · rintro co (rfl | rfl) res hres
    · exact key none (by norm_num [jsOrInt]) res hres
    · exact key (some 0) (by norm_num [jsOrInt]) res hres

/-- Witness for the C3 amended theorem at a concrete two-release environment
with count 1. -/
theorem list_recent_releases_count_bound_sorted_witness :
    list_recent_releases_exec cfgEx (envOfReleases [rawA, rawB])
        { project_slug := "p", count := some 1 } =
      Except.ok [{ version := "b", date := 200, new_issues := 2, type := "desktop" }] ∧
    [({ version := "b", date := 200, new_issues := 2, type := "desktop" } : RecentRelease)].length ≤ 1 ∧
    List.Pairwise recentDateDesc
      [({ version := "b", date := 200, new_issues := 2, type := "desktop" } : RecentRelease)] := by
  refine ⟨rfl, ?_⟩
  exact (list_recent_releases_count_bound_sorted cfgEx (envOfReleases [rawA, rawB])
    "p" none).1 1 (by omega) _ rfl

/-- C4 counterexample: with a single release, the serialized `get_releases`
entry (keys version, dateCreated, newGroups) differs from the serialized
`list_recent_releases` entry (keys version, date, new_issues, type), so the
two tools do not return the same entries. -/
theorem get_releases_recent_entry_shape_cex :
    (get_releases_exec cfgEx (envOfReleases [rawA]) { project_slug := "p" }).map
        (List.map releaseJson) ≠
      (list_recent_releases_exec cfgEx (envOfReleases [rawA])
          { project_slug := "p", count := some 10 }).map (List.map recentReleaseJson) := by
  intro h
  have h1 : (get_releases_exec cfgEx (envOfReleases [rawA])
      { project_slug := "p" }).map (List.map releaseJson) =
      Except.ok [releaseJson { version := "a", dateCreated := 100, newGroups := 1 }] := rfl
  have h2 : (list_recent_releases_exec cfgEx (envOfReleases [rawA])
      { project_slug := "p", count := some 10 }).map (List.map recentReleaseJson) =
      Except.ok [recentReleaseJson
        { version := "a", date := 100, new_issues := 1, type := "desktop" }] := rfl
  rw [h1, h2] at h
  have h3 := congrArg (fun x => match x with
    | Except.ok (j :: _) => j.objKeys
    | _ => ([] : List String)) h
  simp [releaseJson, recentReleaseJson, Json.objKeys] at h3

/-- C4 amended: with any positive count at least the number of releases,
`list_recent_releases` returns exactly the `get_releases` entries in the same
order, each translated to the summary shape: the date field carries
dateCreated, new_issues carries newGroups, and a derived type field is
added. -/
theorem get_releases_matches_recent_entries (cfg : Config) (env : UpstreamEnv)
    (p : String) (org : Option String) (rel : List Release) (c : Int)
    (hok : get_releases_exec cfg env { project_slug := p, org_slug := org } =
       Except.ok rel)
    (hc : 0 < c) (hlen : (rel.length : Int) ≤ c) :
    list_recent_releases_exec cfg env
        { project_slug := p, org_slug := org, count := some c } =
      Except.ok (rel.map recentOfRelease) := by
  have hsplit : get_releases_exec cfg env { project_slug := p, org_slug := org } =
      getSortedReleases env (jsOrStr org cfg.orgSlug) p := rfl
  rw [hsplit] at hok
  rw [list_recent_releases_exec_split, hok]
  simp only [Except.map]
  have hcount : jsOrInt (some c) 5 = c := by
    rw [jsOrInt, if_neg (by omega)]
  have htake : jsSliceTo rel c = rel := by
    rw [jsSliceTo, if_neg (by omega)]
    exact List.take_of_length_le (by omega)
  rw [hcount, htake]
  rfl

/-- Witness for the C4 amended theorem at a concrete two-release
environment. -/
theorem get_releases_matches_recent_entries_witness :
    list_recent_releases_exec cfgEx (envOfReleases [rawA, rawB])
        { project_slug := "p", count := some 2 } =
      Except.ok ([{ version := "b", dateCreated := 200, newGroups := 2 },
                  { version := "a", dateCreated := 100, newGroups := 1 }].map
        recentOfRelease) :=
  get_releases_matches_recent_entries cfgEx (envOfReleases [rawA, rawB]) "p" none
    [{ version := "b", dateCreated := 200, newGroups := 2 },
     { version := "a", dateCreated := 100, newGroups := 1 }] 2 rfl (by omega) (by simp)

/-- Helper: monadic bind on a successful `Except` value reduces. -/
lemma except_bind_ok {E α β : Type} (a : α) (f : α → Except E β) :
    (Except.ok a >>= f : Except E β) = f a := rfl

/-- Helper: monadic bind on a failed `Except` value propagates the error. -/
lemma except_bind_err {E α β : Type} (e : E) (f : α → Except E β) :
    (Except.error e >>= f : Except E β) = Except.error e := rfl

/-- Helper: functorial map on a successful `Except` value reduces. -/
lemma except_map_ok {E α β : Type} (a : α) (f : α → β) :
    (f <$> Except.ok a : Except E β) = Except.ok (f a) := rfl

/-- Helper: functorial map on a failed `Except` value propagates the error. -/
lemma except_map_err {E α β : Type} (e : E) (f : α → β) :
    (f <$> Except.error e : Except E β) = Except.error e := rfl

/-- C6 counterexample: a non-empty release list whose first version string is
empty makes `getLatestReleaseVersion` throw `No releases found` (the falsy
`response.data?.[0]?.version` check) instead of returning the first
element's version. -/
theorem latest_release_empty_version_cex :
    getLatestReleaseVersion
        (envOfReleases [{ version := "", dateCreated := 5, newGroups := 0 }]) "o" "p" =
      Except.error "No releases found" ∧
    getLatestReleaseVersion
        (envOfReleases [{ version := "", dateCreated := 5, newGroups := 0 }]) "o" "p" ≠
      Except.ok "" := by
  refine ⟨rfl, fun h => ?_⟩
  rw [show getLatestReleaseVersion
      (envOfReleases [{ version := "", dateCreated := 5, newGroups := 0 }]) "o" "p" =
      Except.error "No releases found" from rfl] at h
  exact Except.noConfusion h

/-- C6 amended: `getLatestReleaseVersion` fails with `No releases found` when
the raw list is empty or its first version string is empty, and otherwise
returns the raw (not re-sorted) first element's version;
`get_release_issues` without a release version resolves latest by the same
raw-first-element rule (with its own error message on an empty list) and
queries the issue search with exactly that version string. -/
theorem latest_release_first_raw_element (cfg : Config) (env : UpstreamEnv)
    (org proj : String) (data : List RawRelease)
    (h : env.releases org proj = Except.ok data) (horg : org ≠ "") :
    (data = [] →
       getLatestReleaseVersion env org proj = Except.error "No releases found") ∧
    (∀ r rest, data = r :: rest → r.version = "" →
       getLatestReleaseVersion env org proj = Except.error "No releases found") ∧
    (∀ r rest, data = r :: rest → r.version ≠ "" →
       getLatestReleaseVersion env org proj = Except.ok r.version) ∧
    (data = [] →
       get_release_issues_exec cfg env { project_slug := proj, org_slug := some org } =
         Except.error ("No releases found for project " ++ proj)) ∧
    (∀ r rest, data = r :: rest → r.version ≠ "" →
       ∀ pd, env.project org proj = Except.ok pd →
       ∀ found, env.searchIssues org pd.id ("release:\"" ++ r.version ++ "\"") =
         Except.ok found →
       get_release_issues_exec cfg env { project_slug := proj, org_slug := some org } =
         Except.ok (found.map fun issue =>
           { id := issue.id, title := issue.title, permalink := issue.permalink })) := by
  refine ⟨?_, ?_, ?_, ?_, ?_⟩
  · rintro rfl
    simp [getLatestReleaseVersion, h, except_bind_ok]
  · rintro r rest rfl hv
    simp [getLatestReleaseVersion, h, hv, except_bind_ok]
  · rintro r rest rfl hv
    simp [getLatestReleaseVersion, h, hv, except_bind_ok, pure, Except.pure]
  · rintro rfl
    simp [get_release_issues_exec, jsOrStr, horg, h, except_bind_ok, except_bind_err]
  · rintro r rest rfl hv pd hpd found hfound
    simp [get_release_issues_exec, jsOrStr, horg, h, hv, hpd, hfound,
          except_bind_ok, except_map_ok]

/-- Witness for the C6 amended theorem at the concrete two-release
environment: latest is the raw first element a (even though b is newer), and
that exact version string lands in the search query. -/
theorem latest_release_first_raw_element_witness :
    getLatestReleaseVersion envEx "acme" "p" = Except.ok "a" ∧
    get_release_issues_exec cfgEx envEx { project_slug := "p", org_slug := some "acme" } =
      Except.ok [{ id := "7", title := "release:\"a\"", permalink := "pl" }] := by
  have h := latest_release_first_raw_element cfgEx envEx "acme" "p" [rawA, rawB] rfl
    (by decide)
  refine ⟨h.2.2.1 rawA [rawB] rfl (by decide), ?_⟩
  exact h.2.2.2.2 rawA [rawB] rfl (by decide) { id := 89 } rfl
    [{ id := "7", title := "release:\"a\"", permalink := "pl" }] rfl

/-- Helper: a known tool name whose dispatch fails inside the try block
produces the catch-block envelope. -/
lemma handleCallTool_wraps_error (cfg : Config) (env : UpstreamEnv)
    (req : ToolCallRequest) (msg : String) (hmem : req.name ∈ toolNames)
    (h : tryDispatch cfg env req = Except.error msg) :
    handleCallTool cfg env req = Except.ok (errorEnvelope msg) := by
  have hne : req.name ≠ "" := by
    intro h0
    rw [h0] at hmem
    simp [toolNames] at hmem
  unfold handleCallTool
  rw [if_neg (by simp [toolsLookupTruthy, hmem, hne]), h]

/-- Helper: `get_issue` dispatch with any of its three required arguments
absent is rejected by the combined presence check. -/
lemma tryDispatch_get_issue_missing (cfg : Config) (env : UpstreamEnv) (args : Args)
    (h : args.issue_id = none ∨ args.org_slug = none ∨ args.project_slug = none) :
    tryDispatch cfg env { name := "get_issue", arguments := some args } =
      Except.error
        "Invalid arguments for get_issue - requires issue_id, org_slug and project_slug" := by
  rcases h with h | h | h <;>
    cases hA : args.issue_id <;> cases hB : args.org_slug <;>
      cases hC : args.project_slug <;> simp_all [tryDispatch]

/-- C8: a call whose argument record lacks a required field of the named tool
is rejected with that branch's invalid-arguments message, which names the
missing field; the dispatcher returns an isError envelope, and the rejection
is the same for every upstream environment, so the tool's exec is never
consulted. -/
theorem missing_required_field_rejected_before_exec (cfg : Config)
    (env : UpstreamEnv) (name field : String) (args : Args)
    (hf : field ∈ requiredOf name) (hmiss : argPresent args field = false) :
    tryDispatch cfg env { name := name, arguments := some args } =
      Except.error (invalidArgsMsg name) ∧
    strIncludes (invalidArgsMsg name) field = true ∧
    handleCallTool cfg env { name := name, arguments := some args } =
      Except.ok (errorEnvelope (invalidArgsMsg name)) ∧
    (errorEnvelope (invalidArgsMsg name)).isError = true ∧
    (∀ env', tryDispatch cfg env' { name := name, arguments := some args } =
       Except.error (invalidArgsMsg name)) := by
  have hmain : (∀ env', tryDispatch cfg env' { name := name, arguments := some args } =
        Except.error (invalidArgsMsg name)) ∧
      strIncludes (invalidArgsMsg name) field = true ∧ name ∈ toolNames := by
    by_cases h1 : name = "list_recent_releases"
    · subst h1
      have hfield : field = "project_slug" := by
        simpa [requiredOf, serverCapabilities, List.lookup] using hf
      subst hfield
      have hp : args.project_slug = none := by
        cases hx : args.project_slug with
        | none => rfl
        | some v => simp [argPresent, hx] at hmiss
      refine ⟨fun env' => ?_, by decide, by decide⟩
      rw [show invalidArgsMsg "list_recent_releases" =
        "Invalid arguments for list_recent_releases - requires project_slug" from rfl]
      simp [tryDispatch, hp]
    by_cases h2 : name = "get_releases"
    · subst h2
      have hfield : field = "project_slug" := by
        simpa [requiredOf, serverCapabilities, List.lookup] using hf
      subst hfield
      have hp : args.project_slug = none := by
        cases hx : args.project_slug with
        | none => rfl
        | some v => simp [argPresent, hx] at hmiss
      refine ⟨fun env' => ?_, by decide, by decide⟩
      rw [show invalidArgsMsg "get_releases" =
        "Invalid arguments for get_releases - requires project_slug" from rfl]
      simp [tryDispatch, hp]
    by_cases h3 : name = "get_release_health"
    · subst h3
      have hfield : field = "project_slug" := by
        simpa [requiredOf, serverCapabilities, List.lookup] using hf
      subst hfield
      have hp : args.project_slug = none := by
        cases hx : args.project_slug with
        | none => rfl
        | some v => simp [argPresent, hx] at hmiss
      refine ⟨fun env' => ?_, by decide, by decide⟩
      rw [show invalidArgsMsg "get_release_health" =
        "Invalid arguments for get_release_health - requires project_slug" from rfl]
      simp [tryDispatch, hp]
    by_cases h4 : name = "get_release_issues"
    · subst h4
      have hfield : field = "project_slug" := by
        simpa [requiredOf, serverCapabilities, List.lookup] using hf
      subst hfield
      have hp : args.project_slug = none := by
        cases hx : args.project_slug with
        | none => rfl
        | some v => simp [argPresent, hx] at hmiss
      refine ⟨fun env' => ?_, by decide, by decide⟩
      rw [show invalidArgsMsg "get_release_issues" =
        "Invalid arguments for get_release_issues - requires project_slug" from rfl]
      simp [tryDispatch, hp]
    by_cases h5 : name = "get_issue"
    · subst h5
      have hfield : field = "issue_id" ∨ field = "org_slug" ∨ field = "project_slug" := by
        simpa [requiredOf, serverCapabilities, List.lookup] using hf
      have hnone : args.issue_id = none ∨ args.org_slug = none ∨
          args.project_slug = none := by
        rcases hfield with rfl | rfl | rfl
        · refine Or.inl ?_
          cases hx : args.issue_id with
          | none => rfl
          | some v => simp [argPresent, hx] at hmiss
        · refine Or.inr (Or.inl ?_)
          cases hx : args.org_slug with
          | none => rfl
          | some v => simp [argPresent, hx] at hmiss
        · refine Or.inr (Or.inr ?_)
          cases hx : args.project_slug with
          | none => rfl
          | some v => simp [argPresent, hx] at hmiss
      refine ⟨fun env' => ?_, ?_, by decide⟩
      · rw [show invalidArgsMsg "get_issue" =
          "Invalid arguments for get_issue - requires issue_id, org_slug and project_slug"
          from rfl]
        exact tryDispatch_get_issue_missing cfg env' args hnone
      · rcases hfield with rfl | rfl | rfl <;> decide
    · exfalso
      by_cases h0 : name = "inspect_sentry"
      · subst h0
        simp [requiredOf, serverCapabilities, List.lookup] at hf
      · have e0 : (name == "inspect_sentry") = false := by simp [h0]
        have e1 : (name == "list_recent_releases") = false := by simp [h1]
        have e2 : (name == "get_releases") = false := by simp [h2]
        have e3 : (name == "get_release_health") = false := by simp [h3]
        have e4 : (name == "get_release_issues") = false := by simp [h4]
        have e5 : (name == "get_issue") = false := by simp [h5]
        simp [requiredOf, serverCapabilities, List.lookup,
              e0, e1, e2, e3, e4, e5] at hf
  obtain ⟨hall, hinc, hmem⟩ := hmain
  exact ⟨hall env, hinc,
    handleCallTool_wraps_error cfg env _ _ hmem (hall env), rfl, hall⟩

/-- Witness for C8: `get_issue` called without `issue_id`. -/
theorem missing_required_field_rejected_before_exec_witness :
    tryDispatch cfgEx envEx
        { name := "get_issue", arguments := some { project_slug := some "p" } } =
      Except.error (invalidArgsMsg "get_issue") ∧
    strIncludes (invalidArgsMsg "get_issue") "issue_id" = true := by
  have h := missing_required_field_rejected_before_exec cfgEx envEx "get_issue"
    "issue_id" { project_slug := some "p" } (by decide) rfl
  exact ⟨h.1, h.2.1⟩
